import Mathlib

/-!
# param.ParseParams

A shallow embedding of `param/param.go` (package `param` of stripe-mock),
followed by the properties proved of it.

`ParseParams` only routes data between collaborators that live outside the
file: `parser.ParseFormString`, `nestedtypeassembler.AssembleParams`, and the
standard library (`strings.Split`, `http.Request.ParseMultipartForm`,
`multipart.FileHeader.Open`, `ioutil.ReadAll`).  The collaborators of the
repository are parameters of the model; the embedding returns, next to the Go
return pair, the sequence of collaborator calls the body makes.

Go strings are modelled by `String`.  A nil map or a nil error is `none`; a nil
slice and an empty slice are both `[]`.
-/

namespace Param

/-! ## Data model -/

/-- The pair type `form.FormPair`: a key and a value. -/
structure FormPair where
  Key : String
  Value : String
  deriving DecidableEq, Repr

/-- The slice type `form.FormValues`: pairs in order. -/
abbrev FormValues := List FormPair

/-- A `*multipart.FileHeader`, seen through the calls `ParseParams` makes on it:
the error of `Open()`, and the bytes and the error of `ioutil.ReadAll(file)`. -/
structure FileHeader (ε : Type) where
  OpenErr : Option ε
  Bytes : String
  ReadErr : Option ε
  deriving DecidableEq, Repr

/-- A Go `map[string]α` together with the order in which one `range` over it
visits its entries: the entries, listed in visiting order. -/
abbrev GoMap (α : Type) := List (String × α)

/-- The struct `multipart.Form`: `Value map[string][]string` and
`File map[string][]*FileHeader`. -/
structure Form (ε : Type) where
  Value : GoMap (List String)
  File : GoMap (List (FileHeader ε))
  deriving DecidableEq, Repr

/-- The parts of `*http.Request` that `ParseParams` touches.  `Header` is the
header map (a missing key gives the nil slice), `RawQuery` is `r.URL.RawQuery`
and `Body` is what `ioutil.ReadAll(r.Body)` returns: the bytes and the error. -/
structure Request (ε : Type) where
  Method : String
  Header : String → List String
  RawQuery : String
  Body : String × Option ε

/-- The functions `ParseParams` calls that are not in `param.go`.
`ParseMultipartForm` is a method of the request, so it receives the request. -/
structure Collaborators (μ ε : Type) where
  ParseFormString : String → FormValues × Option ε
  AssembleParams : FormValues → Option μ × Option ε
  ParseMultipartForm : Request ε → Nat → Except ε (Form ε)

/-- One collaborator call made by `ParseParams`, with its argument.  The file
calls carry the key of the field the file belongs to. -/
inductive Event where
  | parseFormString (s : String)
  | parseMultipartForm (maxMemory : Nat)
  | fileOpen (key : String)
  | fileReadAll (key : String)
  | fileClose (key : String)
  | bodyReadAll
  | bodyClose
  | assembleParams (values : FormValues)
  deriving DecidableEq, Repr

/-- What a call of `ParseParams` ends in: a run-time panic, or the returned pair
`(map[string]interface{}, error)`. -/
inductive Outcome (μ ε : Type) where
  | panic
  | ret (params : Option μ) (err : Option ε)
  deriving DecidableEq, Repr

/-! ## Constants (`param.go`, lines 95-100) -/

/-- `const MaxMemory = 1 * 1024 * 1024`. -/
def MaxMemory : Nat := 1 * 1024 * 1024

/-- `const MultipartMediaType = "multipart/form-data"`. -/
def MultipartMediaType : String := "multipart/form-data"

/-! ## Standard library -/

/-- The loop of `strings.Split` for a one-byte separator: `cur` holds, reversed,
the bytes read since the last separator. -/
def genSplit (sep : Char) : List Char → List Char → List (List Char)
  | [], cur => [cur.reverse]
  | c :: cs, cur =>
    if c = sep then cur.reverse :: genSplit sep cs [] else genSplit sep cs (c :: cur)

/-- `strings.Split(s, sep)` for a one-byte separator `sep`. -/
def Split (s : String) (sep : Char) : List String :=
  (genSplit sep s.data []).map String.mk

/-- `Header.Get(key)`: the first value stored under `key`, or `""`. -/
def HeaderGet (h : String → List String) (key : String) : String :=
  match h key with
  | [] => ""
  | v :: _ => v

/-! ## ParseParams (`param.go`, lines 25-89) -/

/-- Lines 52-54: `for _, keyValue := range keyValues`. -/
def rangeKeyValues (key : String) : List String → FormValues → FormValues
  | [], values => values
  | keyValue :: rest, values => rangeKeyValues key rest (values ++ [⟨key, keyValue⟩])

/-- Lines 51-55: `for key, keyValues := range r.MultipartForm.Value`. -/
def rangeValue : GoMap (List String) → FormValues → FormValues
  | [], values => values
  | (key, keyValues) :: rest, values => rangeValue rest (rangeKeyValues key keyValues values)

/-- Lines 58-71: `for _, keyFileHeader := range keyValues`.  The result is the
error of an early `return nil, err`, or the grown `values`; the calls made are
appended to `tr`. -/
def rangeKeyFiles {ε : Type} (key : String) :
    List (FileHeader ε) → FormValues → List Event → Except ε FormValues × List Event
  | [], values, tr => (.ok values, tr)
  | keyFileHeader :: rest, values, tr =>
    match keyFileHeader.OpenErr with
    | some err => (.error err, tr ++ [.fileOpen key])
    | none =>
      match keyFileHeader.ReadErr with
      | some err => (.error err, tr ++ [.fileOpen key, .fileReadAll key, .fileClose key])
      | none =>
        rangeKeyFiles key rest (values ++ [⟨key, keyFileHeader.Bytes⟩])
          (tr ++ [.fileOpen key, .fileReadAll key, .fileClose key])

/-- Lines 57-72: `for key, keyValues := range r.MultipartForm.File`. -/
def rangeFile {ε : Type} :
    GoMap (List (FileHeader ε)) → FormValues → List Event → Except ε FormValues × List Event
  | [], values, tr => (.ok values, tr)
  | (key, keyValues) :: rest, values, tr =>
    match rangeKeyFiles key keyValues values tr with
    | (.error err, tr1) => (.error err, tr1)
    | (.ok values1, tr1) => rangeFile rest values1 tr1

/-- Line 88: `return nestedtypeassembler.AssembleParams(values)`. -/
def assemble {μ ε : Type} (c : Collaborators μ ε) (values : FormValues)
    (tr : List Event) : Outcome μ ε × List Event :=
  (.ret (c.AssembleParams values).1 (c.AssembleParams values).2, tr ++ [.assembleParams values])

/-- The function `ParseParams`: the returned pair (or a panic) and the calls
made on the way, in order. -/
def ParseParams {μ ε : Type} (c : Collaborators μ ε) (r : Request ε) :
    Outcome μ ε × List Event :=
  let contentType := HeaderGet r.Header "Content-Type"
  match (Split contentType ';')[0]? with
  | none => (.panic, [])
  | some contentType =>
    if r.Method = "GET" then
      let formString := r.RawQuery
      match c.ParseFormString formString with
      | (_, some err) => (.ret none (some err), [.parseFormString formString])
      | (values, none) => assemble c values [.parseFormString formString]
    else if contentType = MultipartMediaType then
      match c.ParseMultipartForm r MaxMemory with
      | .error err => (.ret none (some err), [.parseMultipartForm MaxMemory])
      | .ok form =>
        let values := rangeValue form.Value []
        match rangeFile form.File values [.parseMultipartForm MaxMemory] with
        | (.error err, tr) => (.ret none (some err), tr)
        | (.ok values, tr) => assemble c values tr
    else
      match r.Body with
      | (_, some err) => (.ret none (some err), [.bodyReadAll])
      | (formBytes, none) =>
        let formString := formBytes
        match c.ParseFormString formString with
        | (_, some err) =>
          (.ret none (some err), [.bodyReadAll, .bodyClose, .parseFormString formString])
        | (values, none) =>
          assemble c values [.bodyReadAll, .bodyClose, .parseFormString formString]

/-! ## Notions used to state the properties -/

/-- The part of `h` before its first `;`: all of `h` when it has none. -/
def cutAtSemicolon (h : String) : String :=
  ⟨h.data.takeWhile fun ch => ch != ';'⟩

/-- The `Content-Type` header of a request, cut at its first `;`. -/
def contentTypeOf {ε : Type} (r : Request ε) : String :=
  cutAtSemicolon (HeaderGet r.Header "Content-Type")

/-- The pair sequence of a call of `AssembleParams`; `none` for any other call. -/
def Event.handed : Event → Option FormValues
  | .assembleParams values => some values
  | _ => none

/-- The pair sequences handed to `AssembleParams` during a run, one for each
call, in order. -/
def handed {μ ε : Type} (res : Outcome μ ε × List Event) : List FormValues :=
  res.2.filterMap Event.handed

/-- One pair `(k, v)` for each value `v` of each entry `k` of a `Value` map. -/
def valuePairs (m : GoMap (List String)) : FormValues :=
  m.flatMap fun e => e.2.map fun v => ⟨e.1, v⟩

/-- One pair `(k, content)` for each file of each entry `k` of a `File` map. -/
def filePairs {ε : Type} (m : GoMap (List (FileHeader ε))) : FormValues :=
  m.flatMap fun e => e.2.map fun f => ⟨e.1, f.Bytes⟩

/-- The error a file gives when it is opened and read: that of `Open`, else
that of `ReadAll`. -/
def FileHeader.failure {ε : Type} (f : FileHeader ε) : Option ε :=
  match f.OpenErr with
  | some err => some err
  | none => f.ReadErr

/-- Every file of a `File` map opens and reads without error. -/
def filesOk {ε : Type} (m : GoMap (List (FileHeader ε))) : Bool :=
  m.all fun e => e.2.all fun f => f.failure.isNone

/-- The values stored in a Go map under key `k`. -/
def entriesAt {α : Type} (m : GoMap (List α)) (k : String) : List α :=
  (m.filter fun e => e.1 == k).flatMap fun e => e.2

/-- The error of the first step before assembly that fails, if one does:
`ParseFormString` on the raw query (GET); `ParseMultipartForm`, or the first
file, in visiting order, that fails to open or read (multipart); reading the
body, or `ParseFormString` on it (any other request). -/
def preAssemblyFailure {μ ε : Type} (c : Collaborators μ ε) (r : Request ε) : Option ε :=
  if r.Method = "GET" then (c.ParseFormString r.RawQuery).2
  else if contentTypeOf r = MultipartMediaType then
    match c.ParseMultipartForm r MaxMemory with
    | .error err => some err
    | .ok form => (form.File.flatMap fun e => e.2).findSome? FileHeader.failure
  else
    match r.Body.2 with
    | some err => some err
    | none => (c.ParseFormString r.Body.1).2

/-! ## The multipart reader of the standard library

`ParseMultipartForm` hands the body to `multipart.Reader.ReadForm`, which fills
the two maps of the form part by part, in the order of the body. -/

/-- One part of a multipart body: a value part (no file name) or a file part. -/
inductive Part (ε : Type) where
  | value (name : String) (value : String)
  | file (name : String) (header : FileHeader ε)
  deriving DecidableEq, Repr

/-- The statement `m[k] = append(m[k], x)` on a Go map. -/
def appendAt {α : Type} (m : GoMap (List α)) (k : String) (x : α) : GoMap (List α) :=
  match m with
  | [] => [(k, [x])]
  | e :: rest => if e.1 = k then (e.1, e.2 ++ [x]) :: rest else e :: appendAt rest k x

/-- The loop of `ReadForm`: a part without a form name is skipped, a value part
goes to `form.Value[name]`, a file part to `form.File[name]`. -/
def readForm {ε : Type} : List (Part ε) → Form ε → Form ε
  | [], form => form
  | .value name v :: rest, form =>
    if name = "" then readForm rest form
    else readForm rest { form with Value := appendAt form.Value name v }
  | .file name fh :: rest, form =>
    if name = "" then readForm rest form
    else readForm rest { form with File := appendAt form.File name fh }

/-- The form `form` is what `ReadForm` builds from `parts`: the same two maps,
their entries visited in any order. -/
def IsFormOf {ε : Type} (form : Form ε) (parts : List (Part ε)) : Prop :=
  form.Value.Perm (readForm parts ⟨[], []⟩).Value ∧
    form.File.Perm (readForm parts ⟨[], []⟩).File

/-- The pair of a part, of either kind. -/
def Part.pair {ε : Type} : Part ε → Option FormPair
  | .value name v => if name = "" then none else some ⟨name, v⟩
  | .file name fh => if name = "" then none else some ⟨name, fh.Bytes⟩

/-- A call on a multipart file: `Open`, `ReadAll` or `Close`. -/
def Event.isFileCall : Event → Bool
  | .fileOpen _ => true
  | .fileReadAll _ => true
  | .fileClose _ => true
  | _ => false

/-! ## Example inputs -/

/-- A stand-in for `parser.ParseFormString` on the strings of the examples: the
broken escape `"%"` is an error, any other string is one key with an empty
value. -/
def exampleParseFormString (s : String) : FormValues × Option String :=
  if s = "%" then ([], some "invalid URL escape") else ([⟨s, ""⟩], none)

/-- A stand-in for `nestedtypeassembler.AssembleParams` that returns the pair
sequence it was given as the tree. -/
def exampleAssembleParams (values : FormValues) : Option FormValues × Option String :=
  (some values, none)

/-- Collaborators whose `ParseMultipartForm` succeeds with `form`. -/
def exampleCollaborators (form : Form String) : Collaborators FormValues String :=
  ⟨exampleParseFormString, exampleAssembleParams, fun _ _ => .ok form⟩

/-- A header map with the single entry `Content-Type: contentType`. -/
def exampleHeader (contentType : String) : String → List String :=
  fun key => if key = "Content-Type" then [contentType] else []

/-- A header map with no entry. -/
def emptyHeader : String → List String :=
  fun _ => []

/-- A form with two value fields and one file field. -/
def exampleForm : Form String :=
  ⟨[("a[]", ["1", "2"]), ("b", ["3"])], [("f", [⟨none, "data", none⟩])]⟩

/-- A request `GET /?a` that also carries a multipart content type and a body. -/
def getRequest : Request String :=
  ⟨"GET", exampleHeader "multipart/form-data; boundary=x", "a", ("b", none)⟩

/-- A request `POST /?a` with a JSON content type and the body `b`. -/
def postRequest : Request String :=
  ⟨"POST", exampleHeader "application/json; charset=utf-8", "a", ("b", none)⟩

/-- A request `POST /?a` without a `Content-Type` header, with the body `b`. -/
def bareRequest : Request String :=
  ⟨"POST", emptyHeader, "a", ("b", none)⟩

/-- A multipart request `POST /`. -/
def multipartRequest : Request String :=
  ⟨"POST", exampleHeader "multipart/form-data; boundary=x", "", ("", none)⟩

/-- A form whose second file cannot be read. -/
def brokenForm : Form String :=
  ⟨[("a", ["1"])], [("f", [⟨none, "data", none⟩, ⟨none, "da", some "unexpected EOF"⟩]),
    ("g", [⟨some "no such file", "", none⟩])]⟩

/-! ## The query check of `net/http`

`Request.ParseMultipartForm` calls `Request.ParseForm` first, which parses
`r.URL.RawQuery` with `url.ParseQuery`, and it returns the error of that call.
The definitions follow `net/url` of Go 1.17 and later, where a `;` in the query
is an error. -/

/-- The errors of `url.ParseQuery`: `url.EscapeError(s)` for an invalid escape
that starts the text `s`, and the error `invalid semicolon separator in query`. -/
inductive QueryError where
  | escape (s : String)
  | semicolon
  deriving DecidableEq, Repr

/-- The test `ishex` of `net/url`: a hexadecimal digit. -/
def ishex (ch : Char) : Bool :=
  ('0' ≤ ch && ch ≤ '9') || ('a' ≤ ch && ch ≤ 'f') || ('A' ≤ ch && ch ≤ 'F')

/-- The error of `url.QueryUnescape(s)`: at the first `%` that is not followed
by two hexadecimal digits, `EscapeError` of the next three bytes at most. -/
def unescapeError : List Char → Option QueryError
  | [] => none
  | ch :: rest =>
    if ch = '%' then
      match rest with
      | a :: b :: rest2 =>
        if ishex a && ishex b then unescapeError rest2
        else some (.escape (String.mk [ch, a, b]))
      | _ => some (.escape (String.mk (ch :: rest)))
    else unescapeError rest

/-- The loop of `url.parseQuery` over the segments between `&`, as far as its
error goes: a segment with a `;` sets the error, an empty segment is skipped,
and a bad escape in the key or in the value sets the error when none is set. -/
def parseQueryError : List (List Char) → Option QueryError → Option QueryError
  | [], err => err
  | seg :: rest, err =>
    if seg.contains ';' then parseQueryError rest (some .semicolon)
    else if seg = [] then parseQueryError rest err
    else
      match unescapeError (seg.takeWhile fun ch => ch != '=') with
      | some err1 => parseQueryError rest (if err.isNone then some err1 else err)
      | none =>
        match unescapeError ((seg.dropWhile fun ch => ch != '=').drop 1) with
        | some err1 => parseQueryError rest (if err.isNone then some err1 else err)
        | none => parseQueryError rest err

/-- The error of `url.ParseQuery(query)`. -/
def ParseQueryError (query : String) : Option QueryError :=
  parseQueryError (genSplit '&' query.data []) none

/-- The method `ParseMultipartForm` of `net/http` on a request whose body reads
as the form `form`: the error of parsing `r.URL.RawQuery`, if there is one, is
returned; otherwise the result is `form`. -/
def netHTTPParseMultipartForm (form : Form QueryError) (r : Request QueryError)
    (_maxMemory : Nat) : Except QueryError (Form QueryError) :=
  match ParseQueryError r.RawQuery with
  | some err => .error err
  | none => .ok form

/-- Collaborators whose `ParseMultipartForm` is that of `net/http`; the other
two are stand-ins, as in `exampleCollaborators`. -/
def netHTTPCollaborators (form : Form QueryError) : Collaborators FormValues QueryError :=
  ⟨fun s => if s = "%" then ([], some (.escape "%")) else ([⟨s, ""⟩], none),
    fun values => (some values, none), netHTTPParseMultipartForm form⟩

/-- The form of `exampleForm`, for the errors of `net/url`. -/
def netHTTPForm : Form QueryError :=
  ⟨[("a[]", ["1", "2"]), ("b", ["3"])], [("f", [⟨none, "data", none⟩])]⟩

/-- A multipart request `POST /?q`, for a raw query `q`. -/
def multipartRequestWithQuery (q : String) : Request QueryError :=
  ⟨"POST", exampleHeader "multipart/form-data; boundary=x", q, ("", none)⟩

/-! ## The assembler of the repository

`nestedtypeassembler.AssembleParams` is not in `param.go`; the definitions of
this section follow the description of the assembler in the specification. -/

/-- Modelled from the spec: the node of `nestedtypeassembler`, a tagged union of
a scalar, an ordered list of nodes, and an object; the fields of an object are
kept in first-seen order. -/
inductive Node where
  | scalar (s : String)
  | list (items : List Node)
  | object (fields : List (String × Node))
  deriving Repr

/-- Modelled from the spec: the bracket part of the key grammar of
`nestedtypeassembler`, `("[" segment "]")*`; the second argument is `none`
outside brackets and the segment read so far, reversed, inside them. -/
def segmentsFrom : List Char → Option (List Char) → Option (List String)
  | [], none => some []
  | [], some _ => none
  | ch :: rest, none => if ch = '[' then segmentsFrom rest (some []) else none
  | ch :: rest, some acc =>
    if ch = ']' then (segmentsFrom rest none).map fun segs => String.mk acc.reverse :: segs
    else if ch = '[' then none
    else segmentsFrom rest (some (ch :: acc))

/-- Modelled from the spec: the key grammar of `nestedtypeassembler`,
`key := name ("[" segment "]")*` with a non-empty `name`; `none` is a malformed
key. -/
def parseKey (key : String) : Option (String × List String) :=
  let name := key.data.takeWhile fun ch => ch != '[' && ch != ']'
  let rest := key.data.dropWhile fun ch => ch != '[' && ch != ']'
  if name = [] then none else (segmentsFrom rest none).map fun segs => (String.mk name, segs)

/-- Modelled from the spec: the slot `container[name]` of an object of
`nestedtypeassembler`. -/
def getField (fields : List (String × Node)) (name : String) : Option Node :=
  match fields with
  | [] => none
  | (k, n) :: rest => if k = name then some n else getField rest name

/-- Modelled from the spec: the assignment `container[name] = node` on an object
of `nestedtypeassembler`; a new field goes last. -/
def setField (fields : List (String × Node)) (name : String) (node : Node) :
    List (String × Node) :=
  match fields with
  | [] => [(name, node)]
  | (k, n) :: rest => if k = name then (k, node) :: rest else (k, n) :: setField rest name node

/-- Modelled from the spec: the per-pair procedure `merge(container,
remainingPath, value)` of `nestedtypeassembler`, rules 1 to 4: a scalar at the
end of the path, an append for a final `[]`, the last object of the list or a
new one for `[]` followed by more segments, and an object for a named segment;
a slot of another kind is a conflict. -/
def merge (key : String) (value : String) :
    List String → List (String × Node) → String → Except String (List (String × Node))
  | [], container, name =>
    match getField container name with
    | some (.list _) => .error ("conflict: " ++ key)
    | some (.object _) => .error ("conflict: " ++ key)
    | _ => .ok (setField container name (.scalar value))
  | [seg], container, name =>
    if seg = "" then
      match getField container name with
      | none => .ok (setField container name (.list [.scalar value]))
      | some (.list items) => .ok (setField container name (.list (items ++ [.scalar value])))
      | some _ => .error ("conflict: " ++ key)
    else
      match getField container name with
      | none => (merge key value [] [] seg).map fun sub => setField container name (.object sub)
      | some (.object sub) =>
        (merge key value [] sub seg).map fun sub2 => setField container name (.object sub2)
      | some _ => .error ("conflict: " ++ key)
  | seg :: next :: more, container, name =>
    if seg = "" then
      match getField container name with
      | none =>
        (merge key value more [] next).map fun sub =>
          setField container name (.list [.object sub])
      | some (.list items) =>
        match items.getLast? with
        | some (.object last) =>
          if (getField last next).isNone then
            (merge key value more last next).map fun sub =>
              setField container name (.list (items.dropLast ++ [.object sub]))
          else
            (merge key value more [] next).map fun sub =>
              setField container name (.list (items ++ [.object sub]))
        | _ =>
          (merge key value more [] next).map fun sub =>
            setField container name (.list (items ++ [.object sub]))
      | some _ => .error ("conflict: " ++ key)
    else
      match getField container name with
      | none =>
        (merge key value (next :: more) [] seg).map fun sub =>
          setField container name (.object sub)
      | some (.object sub) =>
        (merge key value (next :: more) sub seg).map fun sub2 =>
          setField container name (.object sub2)
      | some _ => .error ("conflict: " ++ key)

/-- Modelled from the spec: the fold of `nestedtypeassembler.AssembleParams`
over the pairs, in sequence order, into the root object; the first error ends
it. -/
def assembleFrom : FormValues → List (String × Node) → Option Node × Option String
  | [], root => (some (.object root), none)
  | pair :: rest, root =>
    match parseKey pair.Key with
    | none => (none, some ("malformed key: " ++ pair.Key))
    | some (name, path) =>
      match merge pair.Key pair.Value path root name with
      | .error err => (none, some err)
      | .ok root2 => assembleFrom rest root2

/-- Modelled from the spec: the function `nestedtypeassembler.AssembleParams`,
which starts from a fresh empty root object. -/
def specAssembleParams (pairs : FormValues) : Option Node × Option String :=
  assembleFrom pairs []

/-- Collaborators with the assembler of the specification, whose
`ParseMultipartForm` succeeds with `form`. -/
def specCollaborators (form : Form String) : Collaborators Node String :=
  ⟨exampleParseFormString, specAssembleParams, fun _ _ => .ok form⟩

/-- The parts of a body with the value parts `a[][x]=1`, `a[][y]=2`, `a[][x]=3`. -/
def repeatedParts : List (Part String) :=
  [.value "a[][x]" "1", .value "a[][y]" "2", .value "a[][x]" "3"]

/-- The form of `repeatedParts`, its `Value` map visited at `a[][x]` first. -/
def repeatedFormX : Form String :=
  ⟨[("a[][x]", ["1", "3"]), ("a[][y]", ["2"])], []⟩

/-- The form of `repeatedParts`, its `Value` map visited at `a[][y]` first. -/
def repeatedFormY : Form String :=
  ⟨[("a[][y]", ["2"]), ("a[][x]", ["1", "3"])], []⟩

/-- The parts of a body with the file parts `a[][x]=F1`, `a[][x]=F3` followed
by the value part `a[][y]=2`. -/
def fileFirstParts : List (Part String) :=
  [.file "a[][x]" ⟨none, "F1", none⟩, .file "a[][x]" ⟨none, "F3", none⟩,
    .value "a[][y]" "2"]

/-- The form of `fileFirstParts`; each of its maps has one entry, so one
visiting order. -/
def fileFirstForm : Form String :=
  ⟨[("a[][y]", ["2"])], [("a[][x]", [⟨none, "F1", none⟩, ⟨none, "F3", none⟩])]⟩

/-! ## The content type -/

theorem genSplit_head (sep : Char) (s cur : List Char) :
    (genSplit sep s cur)[0]? = some (cur.reverse ++ s.takeWhile fun ch => ch != sep) := by
  induction s generalizing cur with
  | nil => simp [genSplit]
  | cons ch cs ih =>
    by_cases h : ch = sep
    · simp [genSplit, h]
    · simp [genSplit, h, ih]

theorem Split_head (h : String) : (Split h ';')[0]? = some (cutAtSemicolon h) := by
  simp [Split, cutAtSemicolon, genSplit_head]

theorem cutAtSemicolon_data (h : String) :
    (cutAtSemicolon h).data = h.data.takeWhile fun ch => ch != ';' := rfl

/-! ## The body of `ParseParams`, branch by branch -/

theorem ParseParams_eq {μ ε : Type} (c : Collaborators μ ε) (r : Request ε) :
    ParseParams c r =
      if r.Method = "GET" then
        match c.ParseFormString r.RawQuery with
        | (_, some err) => (.ret none (some err), [.parseFormString r.RawQuery])
        | (values, none) => assemble c values [.parseFormString r.RawQuery]
      else if contentTypeOf r = MultipartMediaType then
        match c.ParseMultipartForm r MaxMemory with
        | .error err => (.ret none (some err), [.parseMultipartForm MaxMemory])
        | .ok form =>
          match rangeFile form.File (rangeValue form.Value []) [.parseMultipartForm MaxMemory] with
          | (.error err, tr) => (.ret none (some err), tr)
          | (.ok values, tr) => assemble c values tr
      else
        match r.Body with
        | (_, some err) => (.ret none (some err), [.bodyReadAll])
        | (formBytes, none) =>
          match c.ParseFormString formBytes with
          | (_, some err) =>
            (.ret none (some err), [.bodyReadAll, .bodyClose, .parseFormString formBytes])
          | (values, none) =>
            assemble c values [.bodyReadAll, .bodyClose, .parseFormString formBytes] := by
  unfold ParseParams
  simp only [Split_head, contentTypeOf]

theorem ParseParams_get {μ ε : Type} (c : Collaborators μ ε) (r : Request ε)
    (hm : r.Method = "GET") :
    ParseParams c r =
      match c.ParseFormString r.RawQuery with
      | (_, some err) => (.ret none (some err), [.parseFormString r.RawQuery])
      | (values, none) => assemble c values [.parseFormString r.RawQuery] := by
  rw [ParseParams_eq, if_pos hm]

theorem ParseParams_multipart {μ ε : Type} (c : Collaborators μ ε) (r : Request ε)
    (hm : r.Method ≠ "GET") (ht : contentTypeOf r = MultipartMediaType) :
    ParseParams c r =
      match c.ParseMultipartForm r MaxMemory with
      | .error err => (.ret none (some err), [.parseMultipartForm MaxMemory])
      | .ok form =>
        match rangeFile form.File (rangeValue form.Value []) [.parseMultipartForm MaxMemory] with
        | (.error err, tr) => (.ret none (some err), tr)
        | (.ok values, tr) => assemble c values tr := by
  rw [ParseParams_eq, if_neg hm, if_pos ht]

theorem ParseParams_body {μ ε : Type} (c : Collaborators μ ε) (r : Request ε)
    (hm : r.Method ≠ "GET") (ht : contentTypeOf r ≠ MultipartMediaType) :
    ParseParams c r =
      match r.Body with
      | (_, some err) => (.ret none (some err), [.bodyReadAll])
      | (formBytes, none) =>
        match c.ParseFormString formBytes with
        | (_, some err) =>
          (.ret none (some err), [.bodyReadAll, .bodyClose, .parseFormString formBytes])
        | (values, none) =>
          assemble c values [.bodyReadAll, .bodyClose, .parseFormString formBytes] := by
  rw [ParseParams_eq, if_neg hm, if_neg ht]

/-! ## The two loops of the multipart branch -/

theorem rangeKeyValues_eq (key : String) (keyValues : List String) (values : FormValues) :
    rangeKeyValues key keyValues values = values ++ keyValues.map fun v => ⟨key, v⟩ := by
  induction keyValues generalizing values with
  | nil => simp [rangeKeyValues]
  | cons v rest ih => simp [rangeKeyValues, ih]

theorem rangeValue_eq (m : GoMap (List String)) (values : FormValues) :
    rangeValue m values = values ++ valuePairs m := by
  induction m generalizing values with
  | nil => simp [rangeValue, valuePairs]
  | cons e rest ih =>
    obtain ⟨key, keyValues⟩ := e
    simp [rangeValue, ih, rangeKeyValues_eq, valuePairs]

theorem rangeKeyFiles_fst {ε : Type} (key : String) (fs : List (FileHeader ε))
    (values : FormValues) (tr : List Event) :
    (rangeKeyFiles key fs values tr).1 =
      match fs.findSome? FileHeader.failure with
      | some err => .error err
      | none => .ok (values ++ fs.map fun f => ⟨key, f.Bytes⟩) := by
  induction fs generalizing values tr with
  | nil => simp [rangeKeyFiles]
  | cons f rest ih =>
    rcases ho : f.OpenErr with _ | e
    · rcases hr : f.ReadErr with _ | e
      · simp [rangeKeyFiles, ho, hr, ih, FileHeader.failure, List.findSome?]
      · simp [rangeKeyFiles, ho, hr, FileHeader.failure, List.findSome?]
    · simp [rangeKeyFiles, ho, FileHeader.failure, List.findSome?]

theorem rangeKeyFiles_snd {ε : Type} (key : String) (fs : List (FileHeader ε))
    (values : FormValues) (tr : List Event) :
    ∃ extra, (rangeKeyFiles key fs values tr).2 = tr ++ extra ∧
      extra.all Event.isFileCall = true := by
  induction fs generalizing values tr with
  | nil => exact ⟨[], by simp [rangeKeyFiles]⟩
  | cons f rest ih =>
    rcases ho : f.OpenErr with _ | e
    · rcases hr : f.ReadErr with _ | e
      · obtain ⟨extra, h1, h2⟩ := ih (values ++ [⟨key, f.Bytes⟩])
          (tr ++ [.fileOpen key, .fileReadAll key, .fileClose key])
        refine ⟨[.fileOpen key, .fileReadAll key, .fileClose key] ++ extra, ?_, ?_⟩
        · simp [rangeKeyFiles, ho, hr, h1]
        · simpa [Event.isFileCall] using h2
      · exact ⟨[.fileOpen key, .fileReadAll key, .fileClose key], by
          simp [rangeKeyFiles, ho, hr], by simp [Event.isFileCall]⟩
    · exact ⟨[.fileOpen key], by simp [rangeKeyFiles, ho], by simp [Event.isFileCall]⟩

theorem rangeFile_fst {ε : Type} (m : GoMap (List (FileHeader ε)))
    (values : FormValues) (tr : List Event) :
    (rangeFile m values tr).1 =
      match (m.flatMap fun e => e.2).findSome? FileHeader.failure with
      | some err => .error err
      | none => .ok (values ++ filePairs m) := by
  induction m generalizing values tr with
  | nil => simp [rangeFile, filePairs]
  | cons e rest ih =>
    obtain ⟨key, fs⟩ := e
    have h1 := rangeKeyFiles_fst key fs values tr
    rcases hk : rangeKeyFiles key fs values tr with ⟨res, tr1⟩
    rw [hk] at h1
    rcases hf : fs.findSome? FileHeader.failure with _ | err
    · rw [hf] at h1
      simp only at h1
      subst h1
      simp [rangeFile, hk, ih, hf, filePairs, List.findSome?_append]
    · rw [hf] at h1
      simp only at h1
      subst h1
      simp [rangeFile, hk, hf, List.findSome?_append]

theorem rangeFile_snd {ε : Type} (m : GoMap (List (FileHeader ε)))
    (values : FormValues) (tr : List Event) :
    ∃ extra, (rangeFile m values tr).2 = tr ++ extra ∧
      extra.all Event.isFileCall = true := by
  induction m generalizing values tr with
  | nil => exact ⟨[], by simp [rangeFile]⟩
  | cons e rest ih =>
    obtain ⟨key, fs⟩ := e
    obtain ⟨x1, h1, h2⟩ := rangeKeyFiles_snd key fs values tr
    rcases hk : rangeKeyFiles key fs values tr with ⟨res, tr1⟩
    rw [hk] at h1
    simp only at h1
    subst h1
    cases res with
    | error err => exact ⟨x1, by simp [rangeFile, hk], h2⟩
    | ok values1 =>
      obtain ⟨x2, h3, h4⟩ := ih values1 (tr ++ x1)
      refine ⟨x1 ++ x2, by simp [rangeFile, hk, h3], ?_⟩
      rw [List.all_append, h2, h4]
      rfl

theorem entriesAt_cons {α : Type} (e : String × List α) (rest : GoMap (List α)) (k : String) :
    entriesAt (e :: rest) k = if e.1 = k then e.2 ++ entriesAt rest k else entriesAt rest k := by
  by_cases h : e.1 = k
  · simp [entriesAt, List.filter_cons, h]
  · simp [entriesAt, List.filter_cons, h]

theorem filter_key_map {α : Type} (g : α → String) (k0 k : String) (xs : List α) :
    (xs.map fun x => (⟨k0, g x⟩ : FormPair)).filter (fun p => p.Key == k) =
      if k0 = k then xs.map fun x => ⟨k, g x⟩ else [] := by
  by_cases h : k0 = k
  · subst h
    simp [List.filter_eq_self]
  · simp [h, List.filter_eq_nil_iff]

theorem filter_key_pairs {α : Type} (g : α → String) (m : GoMap (List α)) (k : String) :
    (m.flatMap fun e => e.2.map fun x => (⟨e.1, g x⟩ : FormPair)).filter (fun p => p.Key == k) =
      (entriesAt m k).map fun x => ⟨k, g x⟩ := by
  induction m with
  | nil => simp [entriesAt]
  | cons e rest ih =>
    rw [List.flatMap_cons, List.filter_append, ih, filter_key_map, entriesAt_cons]
    by_cases h : e.1 = k
    · simp [h]
    · simp [h]

theorem entriesAt_of_not_mem {α : Type} (m : GoMap (List α)) (k : String)
    (h : k ∉ m.map Prod.fst) : entriesAt m k = [] := by
  induction m with
  | nil => simp [entriesAt]
  | cons e rest ih =>
    simp only [List.map_cons, List.mem_cons, not_or] at h
    rw [entriesAt_cons, if_neg (fun h1 => h.1 h1.symm), ih h.2]

theorem entriesAt_of_mem {α : Type} (m : GoMap (List α)) (k : String) (xs : List α)
    (hn : (m.map Prod.fst).Nodup) (h : (k, xs) ∈ m) : entriesAt m k = xs := by
  induction m with
  | nil => simp at h
  | cons e rest ih =>
    simp only [List.map_cons, List.nodup_cons] at hn
    rw [entriesAt_cons]
    rcases List.mem_cons.1 h with h1 | h1
    · subst h1
      simp [entriesAt_of_not_mem rest k hn.1]
    · have hne : e.1 ≠ k := by
        intro h2
        apply hn.1
        rw [h2]
        exact List.mem_map_of_mem Prod.fst h1
      rw [if_neg hne, ih hn.2 h1]

theorem length_pairs {α : Type} (g : α → String) (m : GoMap (List α)) :
    (m.flatMap fun e => e.2.map fun x => (⟨e.1, g x⟩ : FormPair)).length =
      (m.map fun e => e.2.length).sum := by
  induction m with
  | nil => simp
  | cons e rest ih => simp [ih]

theorem ParseParams_multipart_run {μ ε : Type} (c : Collaborators μ ε) (r : Request ε)
    (form : Form ε) (hm : r.Method ≠ "GET") (ht : contentTypeOf r = MultipartMediaType)
    (hf : c.ParseMultipartForm r MaxMemory = .ok form) :
    ∃ calls, calls.all Event.isFileCall = true ∧
      ParseParams c r =
        match (form.File.flatMap fun e => e.2).findSome? FileHeader.failure with
        | some err => (.ret none (some err), .parseMultipartForm MaxMemory :: calls)
        | none =>
          assemble c (valuePairs form.Value ++ filePairs form.File)
            (.parseMultipartForm MaxMemory :: calls) := by
  obtain ⟨calls, h1, h2⟩ :=
    rangeFile_snd form.File (rangeValue form.Value []) [.parseMultipartForm MaxMemory]
  have h3 := rangeFile_fst form.File (rangeValue form.Value []) [.parseMultipartForm MaxMemory]
  refine ⟨calls, h2, ?_⟩
  rw [ParseParams_multipart c r hm ht, hf]
  rcases hk : rangeFile form.File (rangeValue form.Value []) [.parseMultipartForm MaxMemory]
    with ⟨res, tr⟩
  rw [hk] at h1 h3
  simp only at h1 h3
  subst h1
  rcases hs : (form.File.flatMap fun e => e.2).findSome? FileHeader.failure with _ | err
  · rw [hs] at h3
    simp only at h3
    subst h3
    simp only [hk]
    simp [rangeValue_eq]
  · rw [hs] at h3
    simp only at h3
    subst h3
    simp only [hk]
    rfl

theorem findSome_failure_of_filesOk {ε : Type} (m : GoMap (List (FileHeader ε)))
    (hok : filesOk m = true) :
    (m.flatMap fun e => e.2).findSome? FileHeader.failure = none := by
  rw [List.findSome?_eq_none_iff]
  intro f hf
  obtain ⟨e, he, hfe⟩ := List.mem_flatMap.1 hf
  simp only [filesOk, List.all_eq_true] at hok
  have := hok e he f hfe
  simpa using this

theorem handed_of_fileCalls (calls : List Event) (h : calls.all Event.isFileCall = true) :
    calls.filterMap Event.handed = [] := by
  induction calls with
  | nil => rfl
  | cons ev rest ih =>
    simp only [List.all_cons, Bool.and_eq_true] at h
    cases ev <;> simp_all [Event.isFileCall, Event.handed, List.filterMap_cons]

theorem not_mem_of_fileCalls (calls : List Event) (h : calls.all Event.isFileCall = true)
    (n : Nat) : Event.parseMultipartForm n ∉ calls := by
  intro hmem
  have := List.all_eq_true.1 h _ hmem
  simp [Event.isFileCall] at this

theorem ParseParams_multipart_calls {μ ε : Type} (c : Collaborators μ ε) (r : Request ε)
    (hm : r.Method ≠ "GET") (ht : contentTypeOf r = MultipartMediaType) :
    ∃ rest, (ParseParams c r).2 = .parseMultipartForm MaxMemory :: rest ∧
      ∀ n, Event.parseMultipartForm n ∉ rest := by
  rcases hf : c.ParseMultipartForm r MaxMemory with err | form
  · refine ⟨[], ?_, by simp⟩
    rw [ParseParams_multipart c r hm ht, hf]
  · obtain ⟨calls, hc, hrun⟩ := ParseParams_multipart_run c r form hm ht hf
    rcases hs : (form.File.flatMap fun e => e.2).findSome? FileHeader.failure with _ | err
    · rw [hs] at hrun
      refine ⟨calls ++ [.assembleParams (valuePairs form.Value ++ filePairs form.File)], ?_, ?_⟩
      · rw [hrun]
        rfl
      · intro n hmem
        rcases List.mem_append.1 hmem with h1 | h1
        · exact not_mem_of_fileCalls calls hc n h1
        · simp at h1
    · rw [hs] at hrun
      exact ⟨calls, by rw [hrun], not_mem_of_fileCalls calls hc⟩

theorem ParseParams_head_not_multipart {μ ε : Type} (c : Collaborators μ ε) (r : Request ε)
    (h : ¬ (r.Method ≠ "GET" ∧ contentTypeOf r = MultipartMediaType)) :
    (ParseParams c r).2.head? ≠ some (.parseMultipartForm MaxMemory) := by
  rw [ParseParams_eq]
  by_cases hm : r.Method = "GET"
  · rw [if_pos hm]
    split <;> simp [assemble]
  · have ht : contentTypeOf r ≠ MultipartMediaType := fun ht => h ⟨hm, ht⟩
    rw [if_neg hm, if_neg ht]
    split
    · simp
    · split <;> simp [assemble]

/-! ## The GET branch and the body branch -/

/-- C1: for a request whose method is exactly `GET`, whatever its header and
body, `ParseParams` calls `ParseFormString` on `r.URL.RawQuery` and, when that
succeeds with `vs`, returns exactly the pair `AssembleParams(vs)` returns; the
only calls made are these two, so neither the body nor the multipart form is
consulted, and the run is the same for any request with that method and query. -/
theorem get_takes_pairs_from_raw_query {μ ε : Type} (c : Collaborators μ ε)
    (r : Request ε) (vs : FormValues) (hm : r.Method = "GET")
    (hp : c.ParseFormString r.RawQuery = (vs, none)) :
    ParseParams c r =
        (.ret (c.AssembleParams vs).1 (c.AssembleParams vs).2,
          [.parseFormString r.RawQuery, .assembleParams vs]) ∧
      ∀ (c2 : Collaborators μ ε) (r2 : Request ε), r2.Method = "GET" →
        r2.RawQuery = r.RawQuery → c2.ParseFormString = c.ParseFormString →
        c2.AssembleParams = c.AssembleParams → ParseParams c2 r2 = ParseParams c r := by
  constructor
  · rw [ParseParams_get c r hm, hp]
    rfl
  · intro c2 r2 hm2 hq hp2 ha
    rw [ParseParams_get c r hm, ParseParams_get c2 r2 hm2, hq, hp2, hp]
    simp [assemble, ha]

/-- C1, at `GET /?a` sent with a multipart content type and a body. -/
theorem get_takes_pairs_from_raw_query_witness :
    getRequest.Method = "GET" ∧
      (exampleCollaborators exampleForm).ParseFormString getRequest.RawQuery =
        ([⟨"a", ""⟩], none) ∧
      ParseParams (exampleCollaborators exampleForm) getRequest =
        (.ret (some [⟨"a", ""⟩]) none,
          [.parseFormString "a", .assembleParams [⟨"a", ""⟩]]) :=
  ⟨by decide, by decide,
    (get_takes_pairs_from_raw_query (exampleCollaborators exampleForm) getRequest
      [⟨"a", ""⟩] (by decide) (by decide)).1⟩

/-- C2: for a request whose method is not `GET` and whose content type, cut at
its first `;`, is not `multipart/form-data`, `ParseParams` reads the whole body
as one string `s` and, when the read and `ParseFormString(s)` succeed with `vs`,
returns exactly the pair `AssembleParams(vs)` returns. -/
theorem other_content_type_parses_body {μ ε : Type} (c : Collaborators μ ε)
    (r : Request ε) (s : String) (vs : FormValues) (hm : r.Method ≠ "GET")
    (ht : contentTypeOf r ≠ MultipartMediaType) (hb : r.Body = (s, none))
    (hp : c.ParseFormString s = (vs, none)) :
    ParseParams c r =
      (.ret (c.AssembleParams vs).1 (c.AssembleParams vs).2,
        [.bodyReadAll, .bodyClose, .parseFormString s, .assembleParams vs]) := by
  rw [ParseParams_body c r hm ht, hb]
  simp only [hp]
  rfl

/-- C2, at a `POST` with a JSON content type and at one with no content type. -/
theorem other_content_type_parses_body_witness :
    (postRequest.Method ≠ "GET" ∧ contentTypeOf postRequest = "application/json" ∧
        contentTypeOf bareRequest = "" ∧ postRequest.Body = ("b", none)) ∧
      ParseParams (exampleCollaborators exampleForm) postRequest =
        (.ret (some [⟨"b", ""⟩]) none,
          [.bodyReadAll, .bodyClose, .parseFormString "b", .assembleParams [⟨"b", ""⟩]]) ∧
      ParseParams (exampleCollaborators exampleForm) bareRequest =
        (.ret (some [⟨"b", ""⟩]) none,
          [.bodyReadAll, .bodyClose, .parseFormString "b", .assembleParams [⟨"b", ""⟩]]) :=
  ⟨by decide,
    other_content_type_parses_body (exampleCollaborators exampleForm) postRequest "b"
      [⟨"b", ""⟩] (by decide) (by decide) rfl (by decide),
    other_content_type_parses_body (exampleCollaborators exampleForm) bareRequest "b"
      [⟨"b", ""⟩] (by decide) (by decide) rfl (by decide)⟩

/-- C6: the same encoded text gives the same parameters from either origin: a
`GET` request whose raw query is `s` and a request of another method and a
non-multipart content type whose body reads as `s` give the same returned pair
and hand the same pair sequence to `AssembleParams`. -/
theorem query_and_body_agree {μ ε : Type} (c : Collaborators μ ε) (s : String)
    (r1 r2 : Request ε) (h1 : r1.Method = "GET") (hq : r1.RawQuery = s)
    (h2 : r2.Method ≠ "GET") (ht : contentTypeOf r2 ≠ MultipartMediaType)
    (hb : r2.Body = (s, none)) :
    (ParseParams c r1).1 = (ParseParams c r2).1 ∧
      handed (ParseParams c r1) = handed (ParseParams c r2) := by
  rw [ParseParams_get c r1 h1, ParseParams_body c r2 h2 ht, hb, hq]
  rcases hp : c.ParseFormString s with ⟨vs, _ | err⟩
  · simp only [hp]
    simp [assemble, handed, Event.handed, List.filterMap_cons]
  · simp only [hp]
    simp [handed, Event.handed, List.filterMap_cons]

/-- C6, at the query `a` and the body `a`, and at the broken escape `%`. -/
theorem query_and_body_agree_witness :
    (ParseParams (exampleCollaborators exampleForm)
          (⟨"GET", emptyHeader, "a", ("", none)⟩ : Request String)).1 =
        (ParseParams (exampleCollaborators exampleForm)
          (⟨"POST", emptyHeader, "", ("a", none)⟩ : Request String)).1 ∧
      (ParseParams (exampleCollaborators exampleForm)
          (⟨"GET", emptyHeader, "%", ("", none)⟩ : Request String)).1 =
        (ParseParams (exampleCollaborators exampleForm)
          (⟨"PUT", exampleHeader "text/plain", "x", ("%", none)⟩ : Request String)).1 :=
  ⟨(query_and_body_agree (exampleCollaborators exampleForm) "a"
      ⟨"GET", emptyHeader, "a", ("", none)⟩ ⟨"POST", emptyHeader, "", ("a", none)⟩
      (by decide) rfl (by decide) (by decide) rfl).1,
    (query_and_body_agree (exampleCollaborators exampleForm) "%"
      ⟨"GET", emptyHeader, "%", ("", none)⟩ ⟨"PUT", exampleHeader "text/plain", "x", ("%", none)⟩
      (by decide) rfl (by decide) (by decide) rfl).1⟩

/-! ## The multipart branch -/

/-- C3: for a non-`GET` request whose cut content type is `multipart/form-data`,
when the multipart parse and every file open and read succeed, `AssembleParams`
is called once, on the sequence that holds one pair `(k, v)` for each value `v`
of each value field `k`, followed by one pair `(k, content)` for each file of
each file field `k`, and nothing else; its length is the number of field values
plus the number of files; the pairs of one key of the `Value` map, and those of
one key of the `File` map, stand in the order of that key's slice. -/
theorem multipart_one_pair_per_value_and_file {μ ε : Type} (c : Collaborators μ ε)
    (r : Request ε) (form : Form ε) (hm : r.Method ≠ "GET")
    (ht : contentTypeOf r = MultipartMediaType)
    (hf : c.ParseMultipartForm r MaxMemory = .ok form) (hok : filesOk form.File = true) :
    handed (ParseParams c r) = [valuePairs form.Value ++ filePairs form.File] ∧
      (ParseParams c r).1 =
        .ret (c.AssembleParams (valuePairs form.Value ++ filePairs form.File)).1
          (c.AssembleParams (valuePairs form.Value ++ filePairs form.File)).2 ∧
      (valuePairs form.Value ++ filePairs form.File).length =
        (form.Value.map fun e => e.2.length).sum + (form.File.map fun e => e.2.length).sum ∧
      ((form.Value.map Prod.fst).Nodup → ∀ k vs, (k, vs) ∈ form.Value →
        (valuePairs form.Value).filter (fun p => p.Key == k) = vs.map fun v => ⟨k, v⟩) ∧
      ((form.File.map Prod.fst).Nodup → ∀ k fs, (k, fs) ∈ form.File →
        (filePairs form.File).filter (fun p => p.Key == k) = fs.map fun f => ⟨k, f.Bytes⟩) := by
  obtain ⟨calls, hc, hrun⟩ := ParseParams_multipart_run c r form hm ht hf
  rw [findSome_failure_of_filesOk form.File hok] at hrun
  simp only at hrun
  refine ⟨?_, ?_, ?_, ?_, ?_⟩
  · rw [hrun]
    simp [handed, assemble, List.filterMap_cons, List.filterMap_append, Event.handed,
      handed_of_fileCalls calls hc]
  · rw [hrun]
    rfl
  · rw [List.length_append]
    congr 1
    · exact length_pairs (fun v => v) form.Value
    · exact length_pairs (fun f => f.Bytes) form.File
  · intro hn k vs hmem
    have h := filter_key_pairs (fun v => v) form.Value k
    rw [entriesAt_of_mem form.Value k vs hn hmem] at h
    exact h
  · intro hn k fs hmem
    have h := filter_key_pairs (fun f : FileHeader ε => f.Bytes) form.File k
    rw [entriesAt_of_mem form.File k fs hn hmem] at h
    exact h

/-- C3, at a form with the value fields `a[]` (two values) and `b` and the file
field `f`. -/
theorem multipart_one_pair_per_value_and_file_witness :
    (multipartRequest.Method ≠ "GET" ∧
        contentTypeOf multipartRequest = MultipartMediaType ∧
        filesOk exampleForm.File = true) ∧
      handed (ParseParams (exampleCollaborators exampleForm) multipartRequest) =
        [[⟨"a[]", "1"⟩, ⟨"a[]", "2"⟩, ⟨"b", "3"⟩, ⟨"f", "data"⟩]] :=
  ⟨by decide,
    (multipart_one_pair_per_value_and_file (exampleCollaborators exampleForm)
      multipartRequest exampleForm (by decide) (by decide) rfl (by decide)).1⟩

/-! ## The content type and the memory limit -/

/-- C8: the content type `ParseParams` dispatches on is the header value cut at
its first `;`: element 0 of the split exists and is the part `t` of `h` with
`h = t ++ rest`, no `;` in `t`, and `rest` empty or starting with `;`; it is all
of `h` when `h` has no `;`, and empty when `h` is empty or starts with `;`.
`ParseParams` never panics, and a non-`GET` request takes the multipart branch
exactly when its cut content type is `multipart/form-data`. -/
theorem content_type_is_cut_at_semicolon {μ ε : Type} (c : Collaborators μ ε)
    (r : Request ε) (h : String) :
    (Split h ';')[0]? = some (cutAtSemicolon h) ∧
      (∃ rest, h.data = (cutAtSemicolon h).data ++ rest ∧
        ';' ∉ (cutAtSemicolon h).data ∧ (rest = [] ∨ rest.head? = some ';')) ∧
      (';' ∉ h.data → cutAtSemicolon h = h) ∧
      (h = "" ∨ h.data.head? = some ';' → cutAtSemicolon h = "") ∧
      cutAtSemicolon "application/json; charset=utf-8" = "application/json" ∧
      cutAtSemicolon "multipart/form-data; boundary=x" = MultipartMediaType ∧
      (ParseParams c r).1 ≠ .panic ∧
      ((ParseParams c r).2.head? = some (.parseMultipartForm MaxMemory) ↔
        r.Method ≠ "GET" ∧
          cutAtSemicolon (HeaderGet r.Header "Content-Type") = MultipartMediaType) := by
  refine ⟨Split_head h, ?_, ?_, ?_, by decide, by decide, ?_, ?_⟩
  · refine ⟨h.data.dropWhile fun ch => ch != ';', ?_, ?_, ?_⟩
    · rw [cutAtSemicolon_data, List.takeWhile_append_dropWhile]
    · rw [cutAtSemicolon_data]
      intro hmem
      simpa using List.mem_takeWhile_imp hmem
    · rcases hd : h.data.dropWhile (fun ch => ch != ';') with _ | ⟨x, xs⟩
      · exact Or.inl rfl
      · right
        have := List.head_dropWhile_not (fun ch => ch != ';') h.data (by rw [hd]; simp)
        simp only [hd, List.head_cons] at this
        simpa using this
  · intro hno
    apply String.ext
    rw [cutAtSemicolon_data, List.takeWhile_eq_self_iff]
    intro ch hch
    simpa using fun heq : ch = ';' => hno (heq ▸ hch)
  · rintro (rfl | hs)
    · rfl
    · apply String.ext
      rw [cutAtSemicolon_data]
      rcases hd : h.data with _ | ⟨x, xs⟩
      · rfl
      · rw [hd] at hs
        simp only [List.head?_cons, Option.some.injEq] at hs
        subst hs
        simp [List.takeWhile_cons]
  · rw [ParseParams_eq]
    split_ifs
    · split <;> simp [assemble]
    · split
      · simp
      · split <;> simp [assemble]
    · split
      · simp
      · split <;> simp [assemble]
  · constructor
    · intro hh
      by_contra hcon
      exact ParseParams_head_not_multipart c r hcon hh
    · rintro ⟨hm, ht⟩
      obtain ⟨rest, hrest, _⟩ := ParseParams_multipart_calls c r hm ht
      rw [hrest]
      rfl

/-- C8, at the two header values of the source comment and of the multipart
dispatch. -/
theorem content_type_is_cut_at_semicolon_witness :
    (Split "application/json; charset=utf-8" ';')[0]? = some "application/json" ∧
      (Split "multipart/form-data; boundary=x" ';')[0]? = some "multipart/form-data" ∧
      (Split "" ';')[0]? = some "" ∧ (Split ";q=1" ';')[0]? = some "" :=
  ⟨(content_type_is_cut_at_semicolon (exampleCollaborators exampleForm) multipartRequest
      "application/json; charset=utf-8").1,
    (content_type_is_cut_at_semicolon (exampleCollaborators exampleForm) multipartRequest
      "multipart/form-data; boundary=x").1,
    (content_type_is_cut_at_semicolon (exampleCollaborators exampleForm) multipartRequest "").1,
    (content_type_is_cut_at_semicolon (exampleCollaborators exampleForm) multipartRequest
      ";q=1").1⟩

/-- C9: `MaxMemory` is `1 * 1024 * 1024 = 1048576`, and on every multipart
request the first call `ParseParams` makes is `ParseMultipartForm(1048576)`; it
calls `ParseMultipartForm` with no other argument, so the run depends on that
method only through its result at `1048576`. -/
theorem multipart_limit_is_one_mebibyte {μ ε : Type} (c : Collaborators μ ε)
    (r : Request ε) (hm : r.Method ≠ "GET") (ht : contentTypeOf r = MultipartMediaType) :
    MaxMemory = 1048576 ∧
      (ParseParams c r).2.head? = some (.parseMultipartForm 1048576) ∧
      (∀ n, Event.parseMultipartForm n ∈ (ParseParams c r).2 → n = 1048576) ∧
      ParseParams c r =
        ParseParams
          { c with ParseMultipartForm := fun r2 _ => c.ParseMultipartForm r2 1048576 } r := by
  obtain ⟨rest, hrest, hnot⟩ := ParseParams_multipart_calls c r hm ht
  refine ⟨rfl, ?_, ?_, rfl⟩
  · rw [hrest]
    rfl
  · intro n hn
    rw [hrest] at hn
    rcases List.mem_cons.1 hn with h1 | h1
    · injection h1
    · exact absurd h1 (hnot n)

/-- C9, at a multipart `POST`. -/
theorem multipart_limit_is_one_mebibyte_witness :
    (multipartRequest.Method ≠ "GET" ∧ contentTypeOf multipartRequest = MultipartMediaType) ∧
      (ParseParams (exampleCollaborators exampleForm) multipartRequest).2.head? =
        some (.parseMultipartForm 1048576) :=
  ⟨by decide,
    (multipart_limit_is_one_mebibyte (exampleCollaborators exampleForm) multipartRequest
      (by decide) (by decide)).2.1⟩

/-! ## Errors -/

/-- C5: when a step before assembly fails (`ParseFormString` on the raw query or
on the body, `ParseMultipartForm`, opening or reading a multipart file, reading
the body), `ParseParams` returns a nil map with exactly that error and never
calls `AssembleParams`; when none fails, `AssembleParams` is called once and
`ParseParams` returns the pair it returns, so in particular its error. -/
theorem failure_before_assembly_is_returned {μ ε : Type} (c : Collaborators μ ε)
    (r : Request ε) :
    match preAssemblyFailure c r with
    | some err => (ParseParams c r).1 = .ret none (some err) ∧ handed (ParseParams c r) = []
    | none =>
      ∃ vs, handed (ParseParams c r) = [vs] ∧
        (ParseParams c r).1 = .ret (c.AssembleParams vs).1 (c.AssembleParams vs).2 := by
  unfold preAssemblyFailure
  by_cases hm : r.Method = "GET"
  · rw [if_pos hm, ParseParams_get c r hm]
    rcases hp : c.ParseFormString r.RawQuery with ⟨vs, _ | err⟩
    · simp only [hp]
      exact ⟨vs, by simp [handed, assemble, Event.handed, List.filterMap_cons], rfl⟩
    · simp only [hp]
      simp [handed, Event.handed, List.filterMap_cons]
  · rw [if_neg hm]
    by_cases ht : contentTypeOf r = MultipartMediaType
    · rw [if_pos ht]
      rcases hf : c.ParseMultipartForm r MaxMemory with err | form
      · rw [ParseParams_multipart c r hm ht]
        simp only [hf]
        simp [handed, Event.handed, List.filterMap_cons]
      · obtain ⟨calls, hc, hrun⟩ := ParseParams_multipart_run c r form hm ht hf
        rw [hrun]
        rcases hs : (form.File.flatMap fun e => e.2).findSome? FileHeader.failure with _ | err
        · simp only [hs]
          exact ⟨valuePairs form.Value ++ filePairs form.File, by
            simp [handed, assemble, Event.handed, List.filterMap_cons, List.filterMap_append,
              handed_of_fileCalls calls hc], rfl⟩
        · simp only [hs]
          simp [handed, Event.handed, List.filterMap_cons, handed_of_fileCalls calls hc]
    · rw [if_neg ht, ParseParams_body c r hm ht]
      rcases hb : r.Body with ⟨s, _ | err⟩
      · rcases hp : c.ParseFormString s with ⟨vs, _ | err⟩
        · simp only [hp]
          exact ⟨vs, by simp [handed, assemble, Event.handed, List.filterMap_cons], rfl⟩
        · simp only [hp]
          simp [handed, Event.handed, List.filterMap_cons]
      · exact ⟨rfl, by simp [handed, Event.handed, List.filterMap_cons]⟩

/-- C5, at a multipart request whose second file fails to read, at a body that
fails to read, and at a query with a broken escape. -/
theorem failure_before_assembly_is_returned_witness :
    ((ParseParams (exampleCollaborators brokenForm) multipartRequest).1 =
          .ret none (some "unexpected EOF") ∧
        handed (ParseParams (exampleCollaborators brokenForm) multipartRequest) = []) ∧
      ((ParseParams (exampleCollaborators exampleForm)
            (⟨"POST", emptyHeader, "", ("par", some "connection reset")⟩ : Request String)).1 =
          .ret none (some "connection reset") ∧
        handed (ParseParams (exampleCollaborators exampleForm)
            (⟨"POST", emptyHeader, "", ("par", some "connection reset")⟩ : Request String)) =
          []) ∧
      ((ParseParams (exampleCollaborators exampleForm)
            (⟨"GET", emptyHeader, "%", ("", none)⟩ : Request String)).1 =
          .ret none (some "invalid URL escape") ∧
        handed (ParseParams (exampleCollaborators exampleForm)
            (⟨"GET", emptyHeader, "%", ("", none)⟩ : Request String)) = []) :=
  ⟨failure_before_assembly_is_returned (exampleCollaborators brokenForm) multipartRequest,
    failure_before_assembly_is_returned (exampleCollaborators exampleForm)
      ⟨"POST", emptyHeader, "", ("par", some "connection reset")⟩,
    failure_before_assembly_is_returned (exampleCollaborators exampleForm)
      ⟨"GET", emptyHeader, "%", ("", none)⟩⟩

/-! ## The order of the multipart pairs -/

/-- C4 fails on the code: for a body with the file parts `a[][x]=F1`,
`a[][x]=F3` followed by the value part `a[][y]=2`, whose form has a single
visiting order, the pair of the value part is handed to `AssembleParams` before
the pairs of the two file parts, and the assembler of the specification builds
`a: [{y: 2, x: F1}, {x: F3}]` where the pairs in the order of the fields give
`a: [{x: F1}, {x: F3, y: 2}]`. -/
theorem multipart_original_order_lost :
    (∀ form : Form String, IsFormOf form fileFirstParts → form = fileFirstForm) ∧
      fileFirstParts.filterMap Part.pair =
        [⟨"a[][x]", "F1"⟩, ⟨"a[][x]", "F3"⟩, ⟨"a[][y]", "2"⟩] ∧
      handed (ParseParams (specCollaborators fileFirstForm) multipartRequest) =
        [[⟨"a[][y]", "2"⟩, ⟨"a[][x]", "F1"⟩, ⟨"a[][x]", "F3"⟩]] ∧
      (ParseParams (specCollaborators fileFirstForm) multipartRequest).1 =
        .ret (some (.object [("a", .list [.object [("y", .scalar "2"), ("x", .scalar "F1")],
          .object [("x", .scalar "F3")]])])) none ∧
      specAssembleParams (fileFirstParts.filterMap Part.pair) =
        (some (.object [("a", .list [.object [("x", .scalar "F1")],
          .object [("x", .scalar "F3"), ("y", .scalar "2")]])]), none) ∧
      (ParseParams (specCollaborators fileFirstForm) multipartRequest).1 ≠
        .ret (specAssembleParams (fileFirstParts.filterMap Part.pair)).1
          (specAssembleParams (fileFirstParts.filterMap Part.pair)).2 := by
  have hcode : (ParseParams (specCollaborators fileFirstForm) multipartRequest).1 =
      .ret (some (.object [("a", .list [.object [("y", .scalar "2"), ("x", .scalar "F1")],
        .object [("x", .scalar "F3")]])])) none := rfl
  have horig : specAssembleParams (fileFirstParts.filterMap Part.pair) =
      (some (.object [("a", .list [.object [("x", .scalar "F1")],
        .object [("x", .scalar "F3"), ("y", .scalar "2")]])]), none) := rfl
  refine ⟨?_, by decide, by decide, hcode, horig, ?_⟩
  · rintro ⟨value, file⟩ ⟨hv, hf⟩
    have h1 : value = [("a[][y]", ["2"])] := List.perm_singleton.1 hv
    have h2 : file = [("a[][x]", [⟨none, "F1", none⟩, ⟨none, "F3", none⟩])] :=
      List.perm_singleton.1 hf
    rw [h1, h2]
    rfl
  · rw [hcode, horig]
    simp

/-! ## The raw query outside GET -/

/-- C10, as amended: for a request whose method is not `GET` and whose cut
content type is not `multipart/form-data`, the raw query has no influence: two
such requests that differ only in their raw query give the same run, hence the
same result. -/
theorem raw_query_ignored_on_body_branch {μ ε : Type} (c : Collaborators μ ε)
    (r : Request ε) (q1 q2 : String) (hm : r.Method ≠ "GET")
    (ht : contentTypeOf r ≠ MultipartMediaType) :
    ParseParams c { r with RawQuery := q1 } = ParseParams c { r with RawQuery := q2 } := by
  rw [ParseParams_body c { r with RawQuery := q1 } hm ht,
    ParseParams_body c { r with RawQuery := q2 } hm ht]

/-- C10 as amended, at a `POST` with a JSON content type and at one without a
content type, each with the raw queries `a` and `%`. -/
theorem raw_query_ignored_on_body_branch_witness :
    (postRequest.Method ≠ "GET" ∧ contentTypeOf postRequest ≠ MultipartMediaType ∧
        bareRequest.Method ≠ "GET" ∧ contentTypeOf bareRequest ≠ MultipartMediaType) ∧
      ParseParams (exampleCollaborators exampleForm) { postRequest with RawQuery := "a" } =
        ParseParams (exampleCollaborators exampleForm) { postRequest with RawQuery := "%" } ∧
      ParseParams (exampleCollaborators exampleForm) { bareRequest with RawQuery := "a" } =
        ParseParams (exampleCollaborators exampleForm) { bareRequest with RawQuery := "%" } :=
  ⟨by decide,
    raw_query_ignored_on_body_branch (exampleCollaborators exampleForm) postRequest "a" "%"
      (by decide) (by decide),
    raw_query_ignored_on_body_branch (exampleCollaborators exampleForm) bareRequest "a" "%"
      (by decide) (by decide)⟩

/-- C10 fails as stated: multipart `POST` requests that differ only in their
raw query give different results, because `ParseMultipartForm` parses the raw
query and returns its error: the query `""` is assembled, the queries `"%"` and
`"a;b"` are errors. -/
theorem raw_query_counterexample :
    (multipartRequestWithQuery "").Method ≠ "GET" ∧
      (multipartRequestWithQuery "%").Method ≠ "GET" ∧
      (ParseParams (netHTTPCollaborators netHTTPForm) (multipartRequestWithQuery "")).1 =
        .ret (some [⟨"a[]", "1"⟩, ⟨"a[]", "2"⟩, ⟨"b", "3"⟩, ⟨"f", "data"⟩]) none ∧
      (ParseParams (netHTTPCollaborators netHTTPForm) (multipartRequestWithQuery "%")).1 =
        .ret none (some (.escape "%")) ∧
      (ParseParams (netHTTPCollaborators netHTTPForm) (multipartRequestWithQuery "a;b")).1 =
        .ret none (some .semicolon) ∧
      (ParseParams (netHTTPCollaborators netHTTPForm) (multipartRequestWithQuery "")).1 ≠
        (ParseParams (netHTTPCollaborators netHTTPForm) (multipartRequestWithQuery "%")).1 := by
  decide

/-! ## The visiting order of the multipart maps -/

/-- C7 fails on the code: for one multipart request with the value parts
`a[][x]=1`, `a[][y]=2`, `a[][x]=3`, the two visiting orders of the `Value` map
hand different pair sequences to `AssembleParams`, and the assembler of the
specification builds different trees from them. -/
theorem multipart_result_depends_on_visiting_order :
    IsFormOf repeatedFormX repeatedParts ∧ IsFormOf repeatedFormY repeatedParts ∧
      handed (ParseParams (specCollaborators repeatedFormX) multipartRequest) =
        [[⟨"a[][x]", "1"⟩, ⟨"a[][x]", "3"⟩, ⟨"a[][y]", "2"⟩]] ∧
      handed (ParseParams (specCollaborators repeatedFormY) multipartRequest) =
        [[⟨"a[][y]", "2"⟩, ⟨"a[][x]", "1"⟩, ⟨"a[][x]", "3"⟩]] ∧
      (ParseParams (specCollaborators repeatedFormX) multipartRequest).1 =
        .ret (some (.object [("a", .list [.object [("x", .scalar "1")],
          .object [("x", .scalar "3"), ("y", .scalar "2")]])])) none ∧
      (ParseParams (specCollaborators repeatedFormY) multipartRequest).1 =
        .ret (some (.object [("a", .list [.object [("y", .scalar "2"), ("x", .scalar "1")],
          .object [("x", .scalar "3")]])])) none ∧
      (ParseParams (specCollaborators repeatedFormX) multipartRequest).1 ≠
        (ParseParams (specCollaborators repeatedFormY) multipartRequest).1 := by
  have hx : (ParseParams (specCollaborators repeatedFormX) multipartRequest).1 =
      .ret (some (.object [("a", .list [.object [("x", .scalar "1")],
        .object [("x", .scalar "3"), ("y", .scalar "2")]])])) none := rfl
  have hy : (ParseParams (specCollaborators repeatedFormY) multipartRequest).1 =
      .ret (some (.object [("a", .list [.object [("y", .scalar "2"), ("x", .scalar "1")],
        .object [("x", .scalar "3")]])])) none := rfl
  refine ⟨⟨List.Perm.refl _, List.Perm.refl _⟩, ⟨List.Perm.swap _ _ _, List.Perm.refl _⟩,
    by decide, by decide, hx, hy, ?_⟩
  rw [hx, hy]
  simp

end Param
